import Mathlib

/-!
The frame analyser and the session start-up of `ohNetmon.cpp`.

A shallow embedding of `ReceiverThread` (its constructor, `Analyse` and the
`Run` loop in analysing mode) and of the control flow of `main`.

`TUint` is an unsigned 32-bit integer and `TInt` a signed 32-bit integer.
Unsigned values are natural numbers with every arithmetic result reduced
modulo `2^32`; signed values are integers.  Console output (`printf`) does not
influence any field and is left out of the analyser model.
-/

namespace OhNetmon

/-- Number of values of a `TUint`: `2^32`. -/
def U32 : Nat := 4294967296

/-- `TUint` subtraction `a - b`, wrapping modulo `2^32`. -/
def subU32 (a b : Nat) : Nat := (a + U32 - b % U32) % U32

/-- `TUint` addition `a + b`, wrapping modulo `2^32`. -/
def addU32 (a b : Nat) : Nat := (a + b) % U32

/-- Conversion of a `TUint` to a `TInt` (two's complement), as in
`TInt networkTime = rxTimestamp - txTimestamp;`. -/
def toTInt (u : Nat) : Int :=
  if u % U32 < 2147483648 then ((u % U32 : Nat) : Int)
  else ((u % U32 : Nat) : Int) - 4294967296

/-- The four fields `Run` decodes from one 16-byte record and passes to
`Analyse(id, frame, tx, rx)`. -/
structure Frame where
  aId : Nat
  aFrame : Nat
  aTx : Nat
  aRx : Nat
deriving DecidableEq, Repr

/-- A frame as `ReadUintBe(4)` can deliver it: every field is a `TUint`. -/
def Frame.WF (f : Frame) : Prop :=
  f.aId < U32 ∧ f.aFrame < U32 ∧ f.aTx < U32 ∧ f.aRx < U32

instance (f : Frame) : Decidable f.WF := by
  unfold Frame.WF; infer_instance

/-- The data members of `class ReceiverThread` that `Analyse` reads or writes
(the thread, socket and buffer members are not part of the analysis). -/
structure ReceiverThread where
  iId : Nat
  iTotal : Nat
  iMissed : Nat
  iMax : Int
  iMin : Int
  iTimings : List Nat
  iLastFrame : Nat
  iLastTx : Nat
  iLastRx : Nat
  iTxTimebase : Nat
  iRxTimebase : Nat
deriving DecidableEq, Repr

/-- The members the constructor's initialiser list does not mention:
`iLastFrame`, `iLastTx`, `iLastRx`, `iTxTimebase`, `iRxTimebase` hold whatever
the memory held. -/
structure Indeterminate where
  lastFrame : Nat
  lastTx : Nat
  lastRx : Nat
  txTimebase : Nat
  rxTimebase : Nat
deriving DecidableEq, Repr

/-- The constructor `ReceiverThread(aSocket, aAnalyse, aId)`: `iTotal`,
`iMissed`, `iMax`, `iMin` are zero and the loop zeroes the 100 timings. -/
def ReceiverThread.construct (aId : Nat) (u : Indeterminate) : ReceiverThread :=
  { iId := aId
    iTotal := 0
    iMissed := 0
    iMax := 0
    iMin := 0
    iTimings := List.replicate 100 0
    iLastFrame := u.lastFrame
    iLastTx := u.lastTx
    iLastRx := u.lastRx
    iTxTimebase := u.txTimebase
    iRxTimebase := u.rxTimebase }

/-- The statement `iTimings[timingsIndex]++`. -/
def incrTimings (t : List Nat) (i : Nat) : List Nat :=
  t.set i (addU32 (t.getD i 0) 1)

/-- The value `networkTime` computed on the consecutive-frame path:
`rxTimestamp - txTimestamp` with `txTimestamp = aTx - iTxTimebase` and
`rxTimestamp = aRx - iRxTimebase`, converted to `TInt`. -/
def networkTime (s : ReceiverThread) (f : Frame) : Int :=
  toTInt (subU32 (subU32 f.aRx s.iRxTimebase) (subU32 f.aTx s.iTxTimebase))

/-- The innermost `else` block of `Analyse` (no frame missed): the histogram
update and the two extreme updates for the value `nt` of `networkTime`. -/
def recordTiming (s : ReceiverThread) (nt : Int) : ReceiverThread :=
  let networkTimeMs : Int := nt.tdiv 1000
  let timingsIndex : Int := networkTimeMs + 10
  let s1 : ReceiverThread :=
    if timingsIndex > 0 ∧ timingsIndex < 100 then
      { s with iTimings := incrTimings s.iTimings timingsIndex.toNat }
    else s
  let s2 : ReceiverThread :=
    if nt > s1.iMax then { s1 with iMax := nt } else s1
  if nt < s2.iMin then { s2 with iMin := nt } else s2

/-- The method `ReceiverThread::Analyse(aId, aFrame, aTx, aRx)`. -/
def Analyse (s : ReceiverThread) (f : Frame) : ReceiverThread :=
  if f.aId ≠ s.iId then s
  else
    let s1 : ReceiverThread :=
      if s.iTotal = 0 then
        { s with
          iTxTimebase := f.aTx
          iRxTimebase := f.aRx
          iLastFrame := f.aFrame
          iLastTx := 0
          iLastRx := 0 }
      else
        let txTimestamp := subU32 f.aTx s.iTxTimebase
        let rxTimestamp := subU32 f.aRx s.iRxTimebase
        let s2 : ReceiverThread :=
          if f.aFrame < s.iLastFrame then s
          else if f.aFrame = s.iLastFrame then s
          else
            let missed := subU32 (subU32 f.aFrame s.iLastFrame) 1
            if missed > 0 then { s with iMissed := addU32 s.iMissed missed }
            else recordTiming s (networkTime s f)
        { s2 with
          iLastFrame := f.aFrame
          iLastTx := txTimestamp
          iLastRx := rxTimestamp }
    { s1 with iTotal := addU32 s1.iTotal 1 }

/-- The loop of `ReceiverThread::Run` with `iAnalyse` set: every decoded
record goes to `Analyse`, in arrival order. -/
def run (s : ReceiverThread) (fs : List Frame) : ReceiverThread :=
  fs.foldl Analyse s

/-- The frame `f` as it would arrive had the sender's clock been `a` ticks and
the receiver's clock `b` ticks further on (both clocks are `TUint`). -/
def Frame.shift (a b : Nat) (f : Frame) : Frame :=
  { f with aTx := (f.aTx + a) % U32, aRx := (f.aRx + b) % U32 }

/-- The `networkTime` that `Analyse` computes for `f` in state `s`, when its
control flow reaches the block that computes it: matching id, `iTotal` not
zero, `aFrame` neither below nor equal to `iLastFrame`, and `missed` zero. -/
def sampled (s : ReceiverThread) (f : Frame) : Option Int :=
  if f.aId = s.iId ∧ s.iTotal ≠ 0 ∧ ¬ f.aFrame < s.iLastFrame ∧ ¬ f.aFrame = s.iLastFrame ∧
      ¬ subU32 (subU32 f.aFrame s.iLastFrame) 1 > 0 then
    some (networkTime s f)
  else none

/-- Every `networkTime` computed while `run s fs` executes, oldest first. -/
def samples : ReceiverThread → List Frame → List Int
  | _, [] => []
  | s, f :: fs => (sampled s f).toList ++ samples (Analyse s f) fs

/-- The two states agree on every member except the two timebases. -/
def sameAnalysis (s t : ReceiverThread) : Prop :=
  s.iId = t.iId ∧ s.iTotal = t.iTotal ∧ s.iMissed = t.iMissed ∧ s.iMax = t.iMax ∧
  s.iMin = t.iMin ∧ s.iTimings = t.iTimings ∧ s.iLastFrame = t.iLastFrame ∧
  s.iLastTx = t.iLastTx ∧ s.iLastRx = t.iLastRx

/-- State `t` is state `s` seen through clocks moved by `a` and `b`: the same
analysis, and, once a baseline is held (`iTotal` not zero), timebases that are
those of `s` plus `a` and plus `b` modulo `2^32`. -/
def shifted (a b : Nat) (s t : ReceiverThread) : Prop :=
  sameAnalysis s t ∧
  (s.iTotal = 0 ∨ (t.iTxTimebase % U32 = (s.iTxTimebase + a) % U32 ∧
    t.iRxTimebase % U32 = (s.iRxTimebase + b) % U32))

/-! ### `NetworkMonitorList` and `main` -/

/-- What `main` uses of a discovered `CpNetworkMonitor`: its `Name()`, its
`Address()` as `Endpoint::AppendAddress` renders it, and the three ports
`Sender()`, `Receiver()`, `Results()`. -/
structure CpNetworkMonitor where
  name : String
  address : String
  sender : Nat
  receiver : Nat
  results : Nat
deriving DecidableEq, Repr

/-- The method `NetworkMonitorList::Find`: the first monitor of the list whose
name equals `aName`, or null. -/
def Find : List CpNetworkMonitor → String → Option CpNetworkMonitor
  | [], _ => none
  | m :: ms, aName => if m.name = aName then some m else Find ms aName

/-- Everything `main` obtains from outside: the parsed options, the monitors
collected during discovery, whether each socket call succeeds or throws
`NetworkError`, the line `ReadUntil` returns from the sender (without its
newline), and the keys typed.  Runs in which `Write` or `ReadUntil` throw are
not modelled. -/
structure Env where
  parseOk : Bool
  optionList : Bool
  optionSender : String
  optionReceiver : String
  optionId : Nat
  optionCount : Nat
  optionBytes : Nat
  optionDelay : Nat
  optionTtl : Nat
  optionAnalyse : Bool
  iList : List CpNetworkMonitor
  receiverOpenOk : Bool
  receiverConnectOk : Bool
  senderOpenOk : Bool
  senderConnectOk : Bool
  response : String
  keys : List Char
deriving Repr

/-- The calls of `main` on sockets, on the receiver thread and on the objects
it must release, in the order it makes them. -/
inductive Event where
  | receiverOpen
  | receiverConnect (address : String) (port : Nat)
  | senderOpen
  | senderConnect (address : String) (port : Nat)
  | senderWrite (text : String)
  | senderClose
  | receiverThreadNew (analyse : Bool) (id : Nat)
  | reportTimings
  | receiverThreadDelete
  | receiverClose
  | listReport
  | listDelete
  | libraryClose
deriving DecidableEq, Repr

/-- Whether the event is a call on the socket `receiverClient`, the connection
the receiver thread later reads frames from. -/
def Event.onReceiverSocket : Event → Bool
  | .receiverOpen => true
  | .receiverConnect _ _ => true
  | .receiverClose => true
  | _ => false

/-- Whether the event is the creation of the `ReceiverThread`, whose
constructor starts the thread running `Run`. -/
def Event.isThreadNew : Event → Bool
  | .receiverThreadNew _ _ => true
  | _ => false

/-- How a run of `main` ends: the events in order, and the value returned
(`none` when it is still waiting for a key). -/
structure Outcome where
  trace : List Event
  exitCode : Option Nat
deriving DecidableEq, Repr

/-- The line `main` builds in `request`:
`start <address>:<receiver port> <id> <count> <bytes> <delay> <ttl>\n`. -/
def startRequest (receiver : CpNetworkMonitor) (id count bytes delay ttl : Nat) : String :=
  "start " ++ receiver.address ++ ":" ++ toString receiver.receiver ++ " " ++
    toString id ++ " " ++ toString count ++ " " ++ toString bytes ++ " " ++
    toString delay ++ " " ++ toString ttl ++ "\n"

/-- The key loop of `main`: `t` reports the timings, `q` leaves the loop, any
other key is ignored.  The flag tells whether `q` was typed. -/
def keyLoop : List Char → List Event × Bool
  | [] => ([], false)
  | key :: rest =>
    if key = 't' then ((Event.reportTimings :: (keyLoop rest).1), (keyLoop rest).2)
    else if key = 'q' then ([], true)
    else keyLoop rest

/-- The function `main`, from option parsing to its `return`.  Console output,
the start of the library and the discovery of the monitors produce no event;
every `return` of the source is one `Outcome` here, in the source's order. -/
def main (e : Env) : Outcome :=
  if ¬ e.parseOk then ⟨[.libraryClose], some 1⟩
  else if e.optionList then ⟨[.listReport, .listDelete, .libraryClose], some 0⟩
  else if e.optionSender.utf8ByteSize = 0 then ⟨[.listDelete, .libraryClose], some 1⟩
  else if e.optionReceiver.utf8ByteSize = 0 then ⟨[.listDelete, .libraryClose], some 1⟩
  else
    match Find e.iList e.optionSender with
    | none => ⟨[.listDelete, .libraryClose], some 1⟩
    | some sender =>
      match Find e.iList e.optionReceiver with
      | none => ⟨[.listDelete, .libraryClose], some 1⟩
      | some receiver =>
        if e.optionId = 0 then ⟨[.listDelete, .libraryClose], some 1⟩
        else if e.optionDelay = 0 then ⟨[.listDelete, .libraryClose], some 1⟩
        else if ¬ e.receiverOpenOk then ⟨[.listDelete, .libraryClose], some 1⟩
        else if ¬ e.receiverConnectOk then
          ⟨[.receiverOpen, .listDelete, .libraryClose], some 1⟩
        else
          let t1 : List Event :=
            [.receiverOpen, .receiverConnect receiver.address receiver.results]
          if ¬ e.senderOpenOk then ⟨t1 ++ [.listDelete, .libraryClose], some 1⟩
          else if ¬ e.senderConnectOk then
            ⟨t1 ++ [.senderOpen, .listDelete, .libraryClose], some 1⟩
          else
            let t2 : List Event :=
              t1 ++ [.senderOpen, .senderConnect sender.address sender.sender,
                .senderWrite (startRequest receiver e.optionId e.optionCount e.optionBytes
                  e.optionDelay e.optionTtl)]
            if e.response ≠ "OK" then
              ⟨t2 ++ [.senderClose, .listDelete, .libraryClose], some 1⟩
            else
              let t3 : List Event :=
                t2 ++ [.receiverThreadNew e.optionAnalyse e.optionId] ++ (keyLoop e.keys).1
              if (keyLoop e.keys).2 then
                ⟨t3 ++ [.senderWrite "stop\n", .senderClose, .receiverThreadDelete,
                  .receiverClose, .listDelete, .libraryClose], some 0⟩
              else ⟨t3, none⟩

/-- An environment in which both monitors are found, both connections succeed
and the sender answers `text` to the start request. -/
def envAnswering (text : String) : Env :=
  { parseOk := true
    optionList := false
    optionSender := "tx"
    optionReceiver := "rx"
    optionId := 7
    optionCount := 0
    optionBytes := 12
    optionDelay := 10000
    optionTtl := 1
    optionAnalyse := true
    iList := [⟨"tx", "10.0.0.4", 8000, 8001, 8002⟩, ⟨"rx", "10.0.0.5", 9001, 9000, 9002⟩]
    receiverOpenOk := true
    receiverConnectOk := true
    senderOpenOk := true
    senderConnectOk := true
    response := text
    keys := ['t', 'q'] }

/-! ## Field lemmas -/

section FieldLemmas

theorem recordTiming_fields (s : ReceiverThread) (nt : Int) :
    (recordTiming s nt).iId = s.iId ∧ (recordTiming s nt).iTotal = s.iTotal ∧
    (recordTiming s nt).iMissed = s.iMissed ∧
    (recordTiming s nt).iLastFrame = s.iLastFrame ∧
    (recordTiming s nt).iLastTx = s.iLastTx ∧ (recordTiming s nt).iLastRx = s.iLastRx ∧
    (recordTiming s nt).iTxTimebase = s.iTxTimebase ∧
    (recordTiming s nt).iRxTimebase = s.iRxTimebase := by
  unfold recordTiming
  simp only
  split_ifs <;> simp

theorem Analyse_of_id_ne (s : ReceiverThread) (f : Frame) (h : f.aId ≠ s.iId) :
    Analyse s f = s := by
  unfold Analyse
  rw [if_pos h]

theorem Analyse_iId (s : ReceiverThread) (f : Frame) : (Analyse s f).iId = s.iId := by
  unfold Analyse
  simp only
  split_ifs <;> simp [(recordTiming_fields s (networkTime s f)).1]

theorem Analyse_iLastFrame (s : ReceiverThread) (f : Frame) (h : f.aId = s.iId) :
    (Analyse s f).iLastFrame = f.aFrame := by
  unfold Analyse
  simp only
  split_ifs <;> simp_all

theorem incrTimings_length (t : List Nat) (i : Nat) : (incrTimings t i).length = t.length := by
  simp [incrTimings]

theorem incrTimings_getD_ne (t : List Nat) (i j : Nat) (h : i ≠ j) :
    (incrTimings t i).getD j 0 = t.getD j 0 := by
  simp [incrTimings, List.getD_eq_getElem?_getD, List.getElem?_set_ne h]

theorem incrTimings_getD_self (t : List Nat) (i : Nat) (h : i < t.length) :
    (incrTimings t i).getD i 0 = (t.getD i 0 + 1) % 4294967296 := by
  simp [incrTimings, List.getD_eq_getElem?_getD, List.getElem?_set, h, addU32, U32]

theorem recordTiming_iTimings (s : ReceiverThread) (nt : Int) :
    (recordTiming s nt).iTimings =
      if nt.tdiv 1000 + 10 > 0 ∧ nt.tdiv 1000 + 10 < 100 then
        incrTimings s.iTimings (nt.tdiv 1000 + 10).toNat
      else s.iTimings := by
  unfold recordTiming
  simp only
  split_ifs <;> simp

theorem recordTiming_iMax (s : ReceiverThread) (nt : Int) :
    (recordTiming s nt).iMax = max s.iMax nt := by
  unfold recordTiming
  simp only
  split_ifs <;> simp at * <;> omega

theorem recordTiming_iMin (s : ReceiverThread) (nt : Int) :
    (recordTiming s nt).iMin = min s.iMin nt := by
  unfold recordTiming
  simp only
  split_ifs <;> simp at * <;> omega

theorem Analyse_sampled_none (s : ReceiverThread) (f : Frame) (h : sampled s f = none) :
    (Analyse s f).iTimings = s.iTimings ∧ (Analyse s f).iMax = s.iMax ∧
    (Analyse s f).iMin = s.iMin := by
  unfold sampled at h
  unfold Analyse
  simp only
  split_ifs at h with hc
  split_ifs with h1 h2 h3 h4 h5 <;> simp
  exact absurd ⟨not_not.mp h1, h2, h3, h4, h5⟩ hc

theorem Analyse_sampled_some (s : ReceiverThread) (f : Frame) (nt : Int)
    (h : sampled s f = some nt) :
    (Analyse s f).iTimings = (recordTiming s nt).iTimings ∧
    (Analyse s f).iMax = (recordTiming s nt).iMax ∧
    (Analyse s f).iMin = (recordTiming s nt).iMin := by
  unfold sampled at h
  split_ifs at h with hc
  obtain ⟨h1, h2, h3, h4, h5⟩ := hc
  have hnt : networkTime s f = nt := by simpa using h
  unfold Analyse
  simp [h1, h2, h3, h4, h5, hnt]

theorem tdiv_bucket_nonneg (n k : Int) (hk : 0 ≤ k) (h1 : k * 1000 ≤ n)
    (h2 : n < (k + 1) * 1000) : n.tdiv 1000 = k := by
  rw [Int.tdiv_eq_ediv (by omega) (by decide)]
  omega

theorem tdiv_bucket_nonpos (n k : Int) (hk : k ≤ 0) (h1 : (k - 1) * 1000 < n)
    (h2 : n ≤ k * 1000) : n.tdiv 1000 = k := by
  have hn : n = -(-n) := by omega
  rw [hn, Int.neg_tdiv, Int.tdiv_eq_ediv (by omega) (by decide)]
  omega

theorem Analyse_iTotal (s : ReceiverThread) (f : Frame) (hid : f.aId = s.iId) :
    (Analyse s f).iTotal = (s.iTotal + 1) % 4294967296 := by
  obtain ⟨_, q2, _⟩ := recordTiming_fields s (networkTime s f)
  unfold Analyse
  simp only
  rw [if_neg (not_not.mpr hid)]
  split_ifs <;> simp [addU32, U32, q2]

theorem run_replicate_iTotal (f : Frame) (n : Nat) (s : ReceiverThread) (hid : f.aId = s.iId) :
    (run s (List.replicate n f)).iTotal % 4294967296 = (s.iTotal + n) % 4294967296 := by
  induction n generalizing s with
  | zero => rfl
  | succ n ih =>
    show (run (Analyse s f) (List.replicate n f)).iTotal % 4294967296 = _
    rw [ih (Analyse s f) (by rw [Analyse_iId]; exact hid), Analyse_iTotal s f hid]
    omega

theorem run_replicate_succ (f : Frame) (n : Nat) (s : ReceiverThread) (hid : f.aId = s.iId) :
    (run s (List.replicate (n + 1) f)).iLastFrame = f.aFrame ∧
    (run s (List.replicate (n + 1) f)).iTotal < 4294967296 ∧
    (run s (List.replicate (n + 1) f)).iId = s.iId := by
  induction n generalizing s with
  | zero =>
    refine ⟨Analyse_iLastFrame s f hid, ?_, Analyse_iId s f⟩
    show (Analyse s f).iTotal < 4294967296
    rw [Analyse_iTotal s f hid]
    omega
  | succ n ih =>
    have h := ih (Analyse s f) (by rw [Analyse_iId]; exact hid)
    rw [Analyse_iId] at h
    exact h

theorem run_replicate_pos (f : Frame) (n : Nat) (hn : 0 < n) (s : ReceiverThread)
    (hid : f.aId = s.iId) :
    (run s (List.replicate n f)).iLastFrame = f.aFrame ∧
    (run s (List.replicate n f)).iTotal < 4294967296 ∧
    (run s (List.replicate n f)).iId = s.iId := by
  obtain ⟨m, rfl⟩ : ∃ m, n = m + 1 := ⟨n - 1, by omega⟩
  exact run_replicate_succ f m s hid

end FieldLemmas

/-! ## Claims -/

/-- C5: a frame whose id differs from the session id leaves the whole analyser
state unchanged (every counter, the histogram, the extremes, the last sequence
and both timebases), whatever the state, the un-baselined one included. -/
theorem Analyse_mismatched_id (s : ReceiverThread) (f : Frame) (h : f.aId ≠ s.iId) :
    Analyse s f = s := by
  unfold Analyse
  simp [h]

/-- C5 at a concrete input: frame of id 8 offered to the fresh analyser of
session 7. -/
theorem Analyse_mismatched_id_witness :
    Analyse (ReceiverThread.construct 7 ⟨1, 2, 3, 4, 5⟩) ⟨8, 100, 5, 9⟩
      = ReceiverThread.construct 7 ⟨1, 2, 3, 4, 5⟩ :=
  Analyse_mismatched_id (ReceiverThread.construct 7 ⟨1, 2, 3, 4, 5⟩) ⟨8, 100, 5, 9⟩ (by decide)

/-- C2, the claim as stated fails: after the frames 100, 101 of session 7 the
last sequence is 101, and the out-of-order frame 100 sets it to 100. -/
theorem out_of_order_changes_iLastFrame :
    (run (ReceiverThread.construct 7 ⟨0, 0, 0, 0, 0⟩)
        [⟨7, 100, 0, 0⟩, ⟨7, 101, 10000, 10000⟩]).iTotal > 0 ∧
    (run (ReceiverThread.construct 7 ⟨0, 0, 0, 0, 0⟩)
        [⟨7, 100, 0, 0⟩, ⟨7, 101, 10000, 10000⟩]).iLastFrame = 101 ∧
    (Analyse (run (ReceiverThread.construct 7 ⟨0, 0, 0, 0, 0⟩)
        [⟨7, 100, 0, 0⟩, ⟨7, 101, 10000, 10000⟩]) ⟨7, 100, 20000, 20000⟩).iLastFrame = 100 := by
  decide

/-- C2, amended: for a state with `iTotal > 0` and a frame of the session whose
sequence is below `iLastFrame`, `Analyse` stores the frame's sequence in
`iLastFrame`: the last sequence never moves forward, it moves back to the
out-of-order frame; `iMissed`, the histogram and the extremes stay as they
were. -/
theorem Analyse_out_of_order (s : ReceiverThread) (f : Frame) (ht : 0 < s.iTotal)
    (hid : f.aId = s.iId) (hlt : f.aFrame < s.iLastFrame) :
    (Analyse s f).iLastFrame = f.aFrame ∧ (Analyse s f).iLastFrame < s.iLastFrame ∧
    (Analyse s f).iMissed = s.iMissed ∧ (Analyse s f).iTimings = s.iTimings ∧
    (Analyse s f).iMax = s.iMax ∧ (Analyse s f).iMin = s.iMin := by
  have h0 : s.iTotal ≠ 0 := Nat.pos_iff_ne_zero.mp ht
  unfold Analyse
  simp [hid, h0, hlt]

theorem Analyse_out_of_order_witness :
    (Analyse ⟨7, 2, 0, 0, 0, List.replicate 100 0, 101, 0, 0, 0, 0⟩ ⟨7, 100, 5, 5⟩).iLastFrame
      = 100 :=
  (Analyse_out_of_order ⟨7, 2, 0, 0, 0, List.replicate 100 0, 101, 0, 0, 0, 0⟩ ⟨7, 100, 5, 5⟩
    (by decide) rfl (by decide)).1

/-- C8, the claim as stated fails: with `iTotal` at the largest `TUint`, a
duplicate frame makes `iTotal` wrap to 0 instead of growing by one.  Such a
state is reached from the freshly constructed one by `2^32 - 1` frames of
sequence 101. -/
theorem duplicate_total_wraps :
    (Analyse ⟨7, 4294967295, 0, 0, 0, List.replicate 100 0, 101, 0, 0, 0, 0⟩
      ⟨7, 101, 5, 5⟩).iTotal = 0 ∧
    (run (ReceiverThread.construct 7 ⟨0, 0, 0, 0, 0⟩)
      (List.replicate 4294967295 ⟨7, 101, 5, 5⟩)).iTotal = 4294967295 ∧
    (run (ReceiverThread.construct 7 ⟨0, 0, 0, 0, 0⟩)
      (List.replicate 4294967295 ⟨7, 101, 5, 5⟩)).iLastFrame = 101 ∧
    (Analyse (run (ReceiverThread.construct 7 ⟨0, 0, 0, 0, 0⟩)
      (List.replicate 4294967295 ⟨7, 101, 5, 5⟩)) ⟨7, 101, 5, 5⟩).iTotal = 0 := by
  have h1 := run_replicate_iTotal ⟨7, 101, 5, 5⟩ 4294967295
    (ReceiverThread.construct 7 ⟨0, 0, 0, 0, 0⟩) rfl
  obtain ⟨h2, h3, h4⟩ := run_replicate_pos ⟨7, 101, 5, 5⟩ 4294967295 (by decide)
    (ReceiverThread.construct 7 ⟨0, 0, 0, 0, 0⟩) rfl
  have h5 : (ReceiverThread.construct 7 ⟨0, 0, 0, 0, 0⟩).iTotal = 0 := rfl
  rw [h5, Nat.mod_eq_of_lt h3] at h1
  have h6 : (run (ReceiverThread.construct 7 ⟨0, 0, 0, 0, 0⟩)
      (List.replicate 4294967295 ⟨7, 101, 5, 5⟩)).iTotal = 4294967295 := by
    rw [h1]
  refine ⟨by decide, h6, h2, ?_⟩
  rw [Analyse_iTotal _ _ (by rw [h4]; rfl), h6]

/-- C8, amended: for a state with `iTotal > 0` and a frame of the session whose
sequence equals `iLastFrame`, `Analyse` leaves `iMissed` and `iLastFrame`
unchanged and adds one to `iTotal` modulo `2^32`: by exactly one whenever
`iTotal` is below `2^32 - 1`. -/
theorem Analyse_duplicate (s : ReceiverThread) (f : Frame) (ht : 0 < s.iTotal)
    (hid : f.aId = s.iId) (heq : f.aFrame = s.iLastFrame) :
    (Analyse s f).iMissed = s.iMissed ∧ (Analyse s f).iLastFrame = s.iLastFrame ∧
    (Analyse s f).iTotal = (s.iTotal + 1) % 4294967296 ∧
    (s.iTotal < 4294967295 → (Analyse s f).iTotal = s.iTotal + 1) := by
  have h0 : s.iTotal ≠ 0 := Nat.pos_iff_ne_zero.mp ht
  unfold Analyse
  simp only [hid, h0, heq, addU32, U32]
  simp
  intro h
  omega

theorem Analyse_duplicate_witness :
    (Analyse ⟨7, 2, 0, 0, 0, List.replicate 100 0, 101, 0, 0, 0, 0⟩ ⟨7, 101, 5, 5⟩).iTotal
      = (2 + 1) % 4294967296 :=
  (Analyse_duplicate ⟨7, 2, 0, 0, 0, List.replicate 100 0, 101, 0, 0, 0, 0⟩ ⟨7, 101, 5, 5⟩
    (by decide) rfl rfl).2.2.1

/-- C7: if `Analyse` changes a histogram bucket, the maximum or the minimum,
then the frame belongs to the session, `iTotal` was above zero before the call
and the frame's sequence is exactly `iLastFrame + 1`.  So the first frame, a
frame of another id, a duplicate, an out-of-order frame and a frame after a gap
leave histogram and extremes unchanged. -/
theorem Analyse_sample_only_consecutive (s : ReceiverThread) (f : Frame) (hf : f.WF)
    (h : (Analyse s f).iTimings ≠ s.iTimings ∨ (Analyse s f).iMax ≠ s.iMax ∨
      (Analyse s f).iMin ≠ s.iMin) :
    f.aId = s.iId ∧ 0 < s.iTotal ∧ f.aFrame = s.iLastFrame + 1 := by
  have hfr : f.aFrame < 4294967296 := hf.2.1
  by_contra hcon
  apply hcon
  unfold Analyse at h
  simp only at h
  split_ifs at h with h1 h2 h3 h4 h5
  · simp at h
  · simp at h
  · simp at h
  · simp at h
  · simp at h
  · refine ⟨not_not.mp h1, Nat.pos_iff_ne_zero.mpr h2, ?_⟩
    simp only [subU32, U32] at h5
    omega

theorem Analyse_sample_only_consecutive_witness :
    (Analyse ⟨7, 2, 0, 0, 0, List.replicate 100 0, 101, 0, 0, 0, 0⟩ ⟨7, 102, 5, 900⟩).iMax ≠ 0 ∧
    ((7 : Nat) = 7 ∧ 0 < 2 ∧ 102 = 101 + 1) :=
  ⟨by decide,
   Analyse_sample_only_consecutive ⟨7, 2, 0, 0, 0, List.replicate 100 0, 101, 0, 0, 0, 0⟩
    ⟨7, 102, 5, 900⟩ (by decide) (Or.inr (Or.inl (by decide)))⟩

/-! ### Histogram -/

theorem Analyse_iTimings_getD_zero (s : ReceiverThread) (f : Frame) :
    (Analyse s f).iTimings.getD 0 0 = s.iTimings.getD 0 0 := by
  cases h : sampled s f with
  | none => rw [(Analyse_sampled_none s f h).1]
  | some nt =>
    rw [(Analyse_sampled_some s f nt h).1, recordTiming_iTimings]
    split_ifs with hc
    · apply incrTimings_getD_ne
      omega
    · rfl

theorem run_iTimings_getD_zero (s : ReceiverThread) (fs : List Frame) :
    (run s fs).iTimings.getD 0 0 = s.iTimings.getD 0 0 := by
  induction fs generalizing s with
  | nil => rfl
  | cons f fs ih =>
    show (run (Analyse s f) fs).iTimings.getD 0 0 = _
    rw [ih, Analyse_iTimings_getD_zero]

/-- C3, the claim as stated fails: after the baseline frame, a consecutive
frame whose `networkTime` is 89000 has `timingsIndex` 99, and bucket 99 is
incremented. -/
theorem bucket_99_is_incremented :
    networkTime (run (ReceiverThread.construct 7 ⟨0, 0, 0, 0, 0⟩) [⟨7, 0, 0, 0⟩])
      ⟨7, 1, 0, 89000⟩ = 89000 ∧
    (run (ReceiverThread.construct 7 ⟨0, 0, 0, 0, 0⟩)
      [⟨7, 0, 0, 0⟩, ⟨7, 1, 0, 89000⟩]).iTimings.getD 99 0 = 1 := by
  decide

/-- C3, amended: `Analyse` changes bucket `j` of the histogram only if
`0 < j < 100`, so in every state reached from the freshly constructed one
bucket 0 is zero; a `networkTime` of exactly -10000 has index 0 and is not
counted.  (Bucket 99 is an ordinary bucket: it is incremented for index 99.) -/
theorem bucket_zero_never_incremented (aId : Nat) (u : Indeterminate) (fs : List Frame) :
    (run (ReceiverThread.construct aId u) fs).iTimings.getD 0 0 = 0 ∧
    (∀ (s : ReceiverThread) (f : Frame) (j : Nat),
      (Analyse s f).iTimings.getD j 0 ≠ s.iTimings.getD j 0 → 0 < j ∧ j < 100) ∧
    (∀ s : ReceiverThread, (recordTiming s (-10000)).iTimings = s.iTimings) := by
  refine ⟨?_, ?_, ?_⟩
  · rw [run_iTimings_getD_zero]
    rfl
  · intro s f j hne
    cases h : sampled s f with
    | none => exact absurd (by rw [(Analyse_sampled_none s f h).1]) hne
    | some nt =>
      rw [(Analyse_sampled_some s f nt h).1, recordTiming_iTimings] at hne
      split_ifs at hne with hc
      · by_cases hj : (nt.tdiv 1000 + 10).toNat = j
        · omega
        · exact absurd (incrTimings_getD_ne _ _ _ hj) hne
      · exact absurd rfl hne
  · intro s
    rw [recordTiming_iTimings]
    have h : (-10000 : Int).tdiv 1000 = -10 := by decide
    simp [h]

/-- C3 at a concrete input: a `networkTime` of -9000 changes bucket 1, an
index strictly between 0 and 100. -/
theorem bucket_zero_never_incremented_witness :
    (Analyse ⟨7, 1, 0, 0, 0, List.replicate 100 0, 0, 0, 0, 0, 9000⟩
        ⟨7, 1, 0, 0⟩).iTimings.getD 1 0 = 1 ∧ (0 < 1 ∧ 1 < 100) :=
  ⟨by decide,
   (bucket_zero_never_incremented 7 ⟨0, 0, 0, 0, 0⟩ []).2.1
    ⟨7, 1, 0, 0, 0, List.replicate 100 0, 0, 0, 0, 0, 9000⟩ ⟨7, 1, 0, 0⟩ 1 (by decide)⟩

/-- A consecutive frame of the session, in a state past its baseline, reaches
the block that computes `networkTime`. -/
theorem sampled_consecutive (s : ReceiverThread) (f : Frame) (ht : 0 < s.iTotal)
    (hid : f.aId = s.iId) (hf : f.WF) (hseq : f.aFrame = s.iLastFrame + 1) :
    sampled s f = some (networkTime s f) := by
  have hfr : f.aFrame < 4294967296 := hf.2.1
  have h0 : s.iTotal ≠ 0 := Nat.pos_iff_ne_zero.mp ht
  have hm : subU32 (subU32 f.aFrame s.iLastFrame) 1 = 0 := by
    simp only [subU32, U32]
    omega
  unfold sampled
  rw [if_pos]
  refine ⟨hid, h0, by omega, by omega, by omega⟩

/-- C4, the claim as stated fails: a consecutive frame with `networkTime`
-500 lies in the range claimed for bucket 9 (from -1000 up to, not including,
0), but the division truncates towards zero: bucket 9 stays and bucket 10 is
incremented. -/
theorem negative_time_lands_one_bucket_up :
    networkTime (run (ReceiverThread.construct 7 ⟨0, 0, 0, 0, 0⟩) [⟨7, 100, 0, 0⟩])
      ⟨7, 101, 1000, 500⟩ = -500 ∧
    ((9 : Int) - 10) * 1000 ≤ -500 ∧ (-500 : Int) < ((9 : Int) - 9) * 1000 ∧
    (run (ReceiverThread.construct 7 ⟨0, 0, 0, 0, 0⟩)
      [⟨7, 100, 0, 0⟩, ⟨7, 101, 1000, 500⟩]).iTimings.getD 9 0 = 0 ∧
    (run (ReceiverThread.construct 7 ⟨0, 0, 0, 0, 0⟩)
      [⟨7, 100, 0, 0⟩, ⟨7, 101, 1000, 500⟩]).iTimings.getD 10 0 = 1 := by
  decide

/-- C4, amended: the bucket of a consecutive frame is the quotient of
`networkTime` by 1000 truncated towards zero, plus 10.  For `0 < i < 100`
(state past its baseline, 100 buckets, frame of the session with sequence
`iLastFrame + 1`): if `10 ≤ i` and `(i-10)*1000 ≤ n < (i-9)*1000`, or `i ≤ 10`
and `(i-11)*1000 < n ≤ (i-10)*1000`, where `n` is `networkTime`, then `Analyse`
adds one (modulo `2^32`) to bucket `i` and leaves every other bucket
unchanged. -/
theorem Analyse_consecutive_bucket (s : ReceiverThread) (f : Frame) (i : Nat)
    (ht : 0 < s.iTotal) (hid : f.aId = s.iId) (hf : f.WF)
    (hseq : f.aFrame = s.iLastFrame + 1) (hlen : s.iTimings.length = 100)
    (hi0 : 0 < i) (hi : i < 100)
    (hn : (10 ≤ i ∧ ((i : Int) - 10) * 1000 ≤ networkTime s f ∧
            networkTime s f < ((i : Int) - 9) * 1000) ∨
          (i ≤ 10 ∧ ((i : Int) - 11) * 1000 < networkTime s f ∧
            networkTime s f ≤ ((i : Int) - 10) * 1000)) :
    (Analyse s f).iTimings.length = 100 ∧
    ∀ j : Nat, (Analyse s f).iTimings.getD j 0 =
      if j = i then (s.iTimings.getD i 0 + 1) % 4294967296 else s.iTimings.getD j 0 := by
  have hq : (networkTime s f).tdiv 1000 = (i : Int) - 10 := by
    rcases hn with ⟨h1, h2, h3⟩ | ⟨h1, h2, h3⟩
    · exact tdiv_bucket_nonneg _ _ (by omega) h2 (by omega)
    · exact tdiv_bucket_nonpos _ _ (by omega) (by omega) h3
  have hidx : ((networkTime s f).tdiv 1000 + 10).toNat = i := by
    rw [hq]
    omega
  have hc : (networkTime s f).tdiv 1000 + 10 > 0 ∧ (networkTime s f).tdiv 1000 + 10 < 100 := by
    rw [hq]
    omega
  rw [(Analyse_sampled_some s f _ (sampled_consecutive s f ht hid hf hseq)).1,
    recordTiming_iTimings, if_pos hc, hidx]
  refine ⟨by rw [incrTimings_length, hlen], ?_⟩
  intro j
  by_cases hj : j = i
  · rw [if_pos hj, hj]
    exact incrTimings_getD_self _ _ (by omega)
  · rw [if_neg hj]
    exact incrTimings_getD_ne _ _ _ (fun h => hj h.symm)

theorem Analyse_consecutive_bucket_witness :
    (Analyse ⟨7, 1, 0, 0, 0, List.replicate 100 0, 100, 0, 0, 0, 0⟩
        ⟨7, 101, 1000, 500⟩).iTimings.getD 10 0 =
      if 10 = 10 then
        ((ReceiverThread.mk 7 1 0 0 0 (List.replicate 100 0) 100 0 0 0 0).iTimings.getD 10 0 + 1)
          % 4294967296
      else (ReceiverThread.mk 7 1 0 0 0 (List.replicate 100 0) 100 0 0 0 0).iTimings.getD 10 0 :=
  (Analyse_consecutive_bucket ⟨7, 1, 0, 0, 0, List.replicate 100 0, 100, 0, 0, 0, 0⟩
    ⟨7, 101, 1000, 500⟩ 10 (by decide) rfl (by decide) rfl rfl (by decide) (by decide)
    (Or.inr (by decide))).2 10

/-! ### Extremes -/

theorem Analyse_iMax (s : ReceiverThread) (f : Frame) :
    (Analyse s f).iMax = (sampled s f).toList.foldl max s.iMax := by
  cases h : sampled s f with
  | none => simpa using (Analyse_sampled_none s f h).2.1
  | some nt =>
    rw [(Analyse_sampled_some s f nt h).2.1, recordTiming_iMax]
    rfl

theorem Analyse_iMin (s : ReceiverThread) (f : Frame) :
    (Analyse s f).iMin = (sampled s f).toList.foldl min s.iMin := by
  cases h : sampled s f with
  | none => simpa using (Analyse_sampled_none s f h).2.2
  | some nt =>
    rw [(Analyse_sampled_some s f nt h).2.2, recordTiming_iMin]
    rfl

theorem run_iMax (s : ReceiverThread) (fs : List Frame) :
    (run s fs).iMax = (samples s fs).foldl max s.iMax := by
  induction fs generalizing s with
  | nil => rfl
  | cons f fs ih =>
    show (run (Analyse s f) fs).iMax = _
    rw [ih, samples, List.foldl_append, Analyse_iMax]

theorem run_iMin (s : ReceiverThread) (fs : List Frame) :
    (run s fs).iMin = (samples s fs).foldl min s.iMin := by
  induction fs generalizing s with
  | nil => rfl
  | cons f fs ih =>
    show (run (Analyse s f) fs).iMin = _
    rw [ih, samples, List.foldl_append, Analyse_iMin]

theorem le_foldl_max (l : List Int) (a : Int) : a ≤ l.foldl max a := by
  induction l generalizing a with
  | nil => exact le_refl a
  | cons x l ih => exact le_trans (le_max_left a x) (ih (max a x))

theorem foldl_min_le (l : List Int) (a : Int) : l.foldl min a ≤ a := by
  induction l generalizing a with
  | nil => exact le_refl a
  | cons x l ih => exact le_trans (ih (min a x)) (min_le_left a x)

theorem foldl_min_of_le (l : List Int) (a : Int) (h : ∀ n ∈ l, a ≤ n) : l.foldl min a = a := by
  induction l with
  | nil => rfl
  | cons x l ih =>
    have hx : a ≤ x := h x (List.mem_cons_self x l)
    show l.foldl min (min a x) = a
    rw [min_eq_left hx]
    exact ih (fun n hn => h n (List.mem_cons_of_mem x hn))

/-- C10: the extremes start at zero, not at the first sample.  In every state
reached from the freshly constructed one, `iMin ≤ 0 ≤ iMax`, `iMax` is the
maximum of 0 and every `networkTime` sampled so far, `iMin` the minimum of 0
and every `networkTime` sampled so far; so when no sample is negative `iMin`
is still 0. -/
theorem extremes_seeded_with_zero (aId : Nat) (u : Indeterminate) (fs : List Frame) :
    (run (ReceiverThread.construct aId u) fs).iMin ≤ 0 ∧
    0 ≤ (run (ReceiverThread.construct aId u) fs).iMax ∧
    (run (ReceiverThread.construct aId u) fs).iMax =
      (samples (ReceiverThread.construct aId u) fs).foldl max 0 ∧
    (run (ReceiverThread.construct aId u) fs).iMin =
      (samples (ReceiverThread.construct aId u) fs).foldl min 0 ∧
    ((∀ n ∈ samples (ReceiverThread.construct aId u) fs, 0 ≤ n) →
      (run (ReceiverThread.construct aId u) fs).iMin = 0) := by
  have hmax := run_iMax (ReceiverThread.construct aId u) fs
  have hmin := run_iMin (ReceiverThread.construct aId u) fs
  have emax : (ReceiverThread.construct aId u).iMax = 0 := rfl
  have emin : (ReceiverThread.construct aId u).iMin = 0 := rfl
  rw [emax] at hmax
  rw [emin] at hmin
  refine ⟨?_, ?_, hmax, hmin, ?_⟩
  · rw [hmin]
    exact foldl_min_le _ 0
  · rw [hmax]
    exact le_foldl_max _ 0
  · intro h
    rw [hmin]
    exact foldl_min_of_le _ 0 h

/-- C10 at a concrete input: three consecutive frames with samples 700 and
300, both positive; the minimum stays 0. -/
theorem extremes_seeded_with_zero_witness :
    samples (ReceiverThread.construct 7 ⟨0, 0, 0, 0, 0⟩)
      [⟨7, 1, 0, 0⟩, ⟨7, 2, 100, 800⟩, ⟨7, 3, 200, 500⟩] = [700, 300] ∧
    (run (ReceiverThread.construct 7 ⟨0, 0, 0, 0, 0⟩)
      [⟨7, 1, 0, 0⟩, ⟨7, 2, 100, 800⟩, ⟨7, 3, 200, 500⟩]).iMin = 0 :=
  ⟨by decide,
   (extremes_seeded_with_zero 7 ⟨0, 0, 0, 0, 0⟩
      [⟨7, 1, 0, 0⟩, ⟨7, 2, 100, 800⟩, ⟨7, 3, 200, 500⟩]).2.2.2.2 (by decide)⟩

/-! ### Clock shifts -/

theorem subU32_shift (x y z a : Nat) (h : z % U32 = (y + a) % U32) :
    subU32 ((x + a) % U32) z = subU32 x y := by
  simp only [subU32, U32] at *
  omega

theorem recordTiming_sameAnalysis (s t : ReceiverThread) (nt : Int) (h : sameAnalysis s t) :
    sameAnalysis (recordTiming s nt) (recordTiming t nt) := by
  obtain ⟨h1, h2, h3, h4, h5, h6, h7, h8, h9⟩ := h
  unfold recordTiming sameAnalysis
  simp only [h1, h2, h3, h4, h5, h6, h7, h8, h9]
  split_ifs <;> simp_all

theorem shifted_step (a b : Nat) (s t : ReceiverThread) (f : Frame) (h : shifted a b s t) :
    shifted a b (Analyse s f) (Analyse t (f.shift a b)) := by
  obtain ⟨hs, hb⟩ := h
  have hs0 := hs
  obtain ⟨h1, h2, h3, h4, h5, h6, h7, h8, h9⟩ := hs
  by_cases hid : f.aId = s.iId
  swap
  · rw [Analyse_of_id_ne s f hid,
      Analyse_of_id_ne t (f.shift a b) (by rw [← h1]; exact hid)]
    exact ⟨hs0, hb⟩
  have hid2 : (f.shift a b).aId = t.iId := by rw [← h1]; exact hid
  by_cases h0 : s.iTotal = 0
  · have h0t : t.iTotal = 0 := by rw [← h2]; exact h0
    unfold Analyse shifted sameAnalysis
    simp [hid, hid2, h0, h0t, Frame.shift, h1, h3, h4, h5, h6, addU32, U32]
  · have h0t : ¬ t.iTotal = 0 := by rw [← h2]; exact h0
    rcases hb with hb | ⟨hb1, hb2⟩
    · exact absurd hb h0
    have htx : subU32 (f.shift a b).aTx t.iTxTimebase = subU32 f.aTx s.iTxTimebase :=
      subU32_shift _ _ _ _ hb1
    have hrx : subU32 (f.shift a b).aRx t.iRxTimebase = subU32 f.aRx s.iRxTimebase :=
      subU32_shift _ _ _ _ hb2
    have hnt : networkTime t (f.shift a b) = networkTime s f := by
      unfold networkTime
      rw [htx, hrx]
    have hfr : (f.shift a b).aFrame = f.aFrame := rfl
    have hrec := recordTiming_sameAnalysis s t (networkTime s f) hs0
    obtain ⟨r1, r2, r3, r4, r5, r6, r7, r8, r9⟩ := hrec
    obtain ⟨q1, q2, q3, q4, q5, q6, q7, q8⟩ := recordTiming_fields s (networkTime s f)
    obtain ⟨p1, p2, p3, p4, p5, p6, p7, p8⟩ := recordTiming_fields t (networkTime s f)
    unfold Analyse shifted sameAnalysis
    simp only [hid, hid2, h0, h0t, htx, hrx, hnt, hfr, ← h7, ← h3, ← h2]
    split_ifs <;> simp_all

theorem run_shifted (a b : Nat) (fs : List Frame) (s t : ReceiverThread)
    (h : shifted a b s t) : shifted a b (run s fs) (run t (fs.map (Frame.shift a b))) := by
  induction fs generalizing s t with
  | nil => exact h
  | cons f fs ih => exact ih _ _ (shifted_step a b s t f h)

/-- C6: timing is relative to the baseline only.  Adding `a` to every
`txTimestamp` and `b` to every `rxTimestamp` (modulo `2^32`) of a list of
frames gives, from the freshly constructed state, the same total, missed
count, histogram, minimum, maximum and last sequence (and the same relative
`iLastTx`, `iLastRx`). -/
theorem run_shift_invariant (aId : Nat) (u : Indeterminate) (fs : List Frame) (a b : Nat) :
    (run (ReceiverThread.construct aId u) (fs.map (Frame.shift a b))).iTotal =
      (run (ReceiverThread.construct aId u) fs).iTotal ∧
    (run (ReceiverThread.construct aId u) (fs.map (Frame.shift a b))).iMissed =
      (run (ReceiverThread.construct aId u) fs).iMissed ∧
    (run (ReceiverThread.construct aId u) (fs.map (Frame.shift a b))).iTimings =
      (run (ReceiverThread.construct aId u) fs).iTimings ∧
    (run (ReceiverThread.construct aId u) (fs.map (Frame.shift a b))).iMin =
      (run (ReceiverThread.construct aId u) fs).iMin ∧
    (run (ReceiverThread.construct aId u) (fs.map (Frame.shift a b))).iMax =
      (run (ReceiverThread.construct aId u) fs).iMax ∧
    (run (ReceiverThread.construct aId u) (fs.map (Frame.shift a b))).iLastFrame =
      (run (ReceiverThread.construct aId u) fs).iLastFrame ∧
    (run (ReceiverThread.construct aId u) (fs.map (Frame.shift a b))).iLastTx =
      (run (ReceiverThread.construct aId u) fs).iLastTx ∧
    (run (ReceiverThread.construct aId u) (fs.map (Frame.shift a b))).iLastRx =
      (run (ReceiverThread.construct aId u) fs).iLastRx := by
  have h0 : shifted a b (ReceiverThread.construct aId u) (ReceiverThread.construct aId u) :=
    ⟨⟨rfl, rfl, rfl, rfl, rfl, rfl, rfl, rfl, rfl⟩, Or.inl rfl⟩
  obtain ⟨⟨_, h2, h3, h4, h5, h6, h7, h8, h9⟩, _⟩ := run_shifted a b fs _ _ h0
  exact ⟨h2.symm, h3.symm, h6.symm, h5.symm, h4.symm, h7.symm, h8.symm, h9.symm⟩

/-- C6 at a concrete input: both clocks moved, by 4000000000 and by 123. -/
theorem run_shift_invariant_witness :
    (run (ReceiverThread.construct 7 ⟨0, 0, 0, 0, 0⟩)
        ([⟨7, 1, 500000000, 0⟩, ⟨7, 2, 500010000, 10700⟩].map
          (Frame.shift 4000000000 123))).iMax =
      (run (ReceiverThread.construct 7 ⟨0, 0, 0, 0, 0⟩)
        [⟨7, 1, 500000000, 0⟩, ⟨7, 2, 500010000, 10700⟩]).iMax :=
  (run_shift_invariant 7 ⟨0, 0, 0, 0, 0⟩
    [⟨7, 1, 500000000, 0⟩, ⟨7, 2, 500010000, 10700⟩] 4000000000 123).2.2.2.2.1

/-! ### Loss accounting -/

theorem Analyse_forward (s : ReceiverThread) (f : Frame) (hid : f.aId = s.iId)
    (h0 : s.iTotal ≠ 0) (hlt : s.iLastFrame < f.aFrame) (hfr : f.aFrame < 4294967296)
    (hm : s.iMissed ≤ s.iLastFrame) (htot : s.iTotal + 1 < 4294967296) :
    (Analyse s f).iTotal = s.iTotal + 1 ∧
    (Analyse s f).iMissed + s.iLastFrame + 1 = s.iMissed + f.aFrame := by
  obtain ⟨q1, q2, q3, q4, q5, q6, q7, q8⟩ := recordTiming_fields s (networkTime s f)
  have hnlt : ¬ f.aFrame < s.iLastFrame := by omega
  have hne : ¬ f.aFrame = s.iLastFrame := by omega
  unfold Analyse
  simp only
  rw [if_neg (not_not.mpr hid), if_neg h0, if_neg hnlt, if_neg hne]
  split_ifs with hmiss
  · simp only [subU32, addU32, U32] at hmiss ⊢
    omega
  · simp only [subU32, U32] at hmiss
    simp only [q2, q3, addU32, U32]
    omega

theorem run_iLastFrame (s : ReceiverThread) (fs : List Frame) (hne : fs ≠ [])
    (hid : ∀ f ∈ fs, f.aId = s.iId) :
    (run s fs).iLastFrame = (fs.getLast hne).aFrame := by
  induction fs generalizing s with
  | nil => exact absurd rfl hne
  | cons f fs ih =>
    have hf : f.aId = s.iId := hid f (List.mem_cons_self f fs)
    by_cases hfs : fs = []
    · subst hfs
      exact Analyse_iLastFrame s f hf
    · show (run (Analyse s f) fs).iLastFrame = _
      rw [List.getLast_cons hfs]
      apply ih
      intro g hg
      rw [Analyse_iId]
      exact hid g (List.mem_cons_of_mem f hg)

theorem run_increasing (s : ReceiverThread) (fs : List Frame)
    (hid : ∀ f ∈ fs, f.aId = s.iId) (hfr : ∀ f ∈ fs, f.aFrame < 4294967296)
    (h0 : s.iTotal ≠ 0) (hhead : ∀ f ∈ fs, s.iLastFrame < f.aFrame)
    (hinc : fs.Pairwise (fun f g => f.aFrame < g.aFrame))
    (hm : s.iMissed ≤ s.iLastFrame) (htot : s.iTotal + fs.length < 4294967296) :
    (run s fs).iTotal = s.iTotal + fs.length ∧
    (run s fs).iMissed + s.iLastFrame + fs.length = s.iMissed + (run s fs).iLastFrame := by
  induction fs generalizing s with
  | nil => exact ⟨rfl, rfl⟩
  | cons f fs ih =>
    have hf : f.aId = s.iId := hid f (List.mem_cons_self f fs)
    have hlt : s.iLastFrame < f.aFrame := hhead f (List.mem_cons_self f fs)
    have hff : f.aFrame < 4294967296 := hfr f (List.mem_cons_self f fs)
    rw [List.length_cons] at htot
    obtain ⟨a1, a2⟩ := Analyse_forward s f hf h0 hlt hff hm (by omega)
    have a3 : (Analyse s f).iLastFrame = f.aFrame := Analyse_iLastFrame s f hf
    rw [List.pairwise_cons] at hinc
    have key := ih (Analyse s f)
      (fun g hg => by rw [Analyse_iId]; exact hid g (List.mem_cons_of_mem f hg))
      (fun g hg => hfr g (List.mem_cons_of_mem f hg))
      (by omega)
      (fun g hg => by rw [a3]; exact hinc.1 g hg)
      hinc.2 (by omega) (by omega)
    show (run (Analyse s f) fs).iTotal = _ ∧
      (run (Analyse s f) fs).iMissed + _ + _ = _ + (run (Analyse s f) fs).iLastFrame
    rw [List.length_cons]
    omega

theorem Analyse_construct (aId : Nat) (u : Indeterminate) (f : Frame) (hid : f.aId = aId) :
    (Analyse (ReceiverThread.construct aId u) f).iTotal = 1 ∧
    (Analyse (ReceiverThread.construct aId u) f).iMissed = 0 ∧
    (Analyse (ReceiverThread.construct aId u) f).iLastFrame = f.aFrame ∧
    (Analyse (ReceiverThread.construct aId u) f).iId = aId := by
  unfold Analyse ReceiverThread.construct
  simp [hid, addU32, U32]

/-- C1: loss accounting over an increasing run.  For a non-empty list of fewer
than `2^32` frames of the session whose sequence numbers strictly increase,
`run` from the freshly constructed state ends with `iTotal` the number of
frames and `iMissed` equal to (last sequence - first sequence) - (number of
frames - 1); so `iMissed` is 0 when the sequence numbers are consecutive. -/
theorem loss_accounting (aId : Nat) (u : Indeterminate) (fs : List Frame) (hne : fs ≠ [])
    (hlen : fs.length < 4294967296) (hid : ∀ f ∈ fs, f.aId = aId) (hwf : ∀ f ∈ fs, f.WF)
    (hinc : fs.Pairwise (fun f g => f.aFrame < g.aFrame)) :
    (run (ReceiverThread.construct aId u) fs).iTotal = fs.length ∧
    (run (ReceiverThread.construct aId u) fs).iMissed =
      ((fs.getLast hne).aFrame - (fs.head hne).aFrame) - (fs.length - 1) ∧
    ((fs.getLast hne).aFrame = (fs.head hne).aFrame + (fs.length - 1) →
      (run (ReceiverThread.construct aId u) fs).iMissed = 0) := by
  have hlast := run_iLastFrame (ReceiverThread.construct aId u) fs hne hid
  cases fs with
  | nil => exact absurd rfl hne
  | cons f rest =>
    have hf : f.aId = aId := hid f (List.mem_cons_self f rest)
    obtain ⟨c1, c2, c3, c4⟩ := Analyse_construct aId u f hf
    rw [List.pairwise_cons] at hinc
    rw [List.length_cons] at hlen
    have key := run_increasing (Analyse (ReceiverThread.construct aId u) f) rest
      (fun g hg => by rw [c4]; exact hid g (List.mem_cons_of_mem f hg))
      (fun g hg => (hwf g (List.mem_cons_of_mem f hg)).2.1)
      (by omega)
      (fun g hg => by rw [c3]; exact hinc.1 g hg)
      hinc.2 (by omega) (by omega)
    have hrun : run (ReceiverThread.construct aId u) (f :: rest) =
        run (Analyse (ReceiverThread.construct aId u) f) rest := rfl
    rw [hrun] at hlast ⊢
    rw [List.head_cons, List.length_cons]
    rw [c1, c2, c3, hlast] at key
    omega

/-- C1 at the sequences 100, 101, 106 of session 7: total 3, missed 4. -/
theorem loss_accounting_witness :
    (run (ReceiverThread.construct 7 ⟨0, 0, 0, 0, 0⟩)
      [⟨7, 100, 0, 50⟩, ⟨7, 101, 10000, 10060⟩, ⟨7, 106, 60000, 60055⟩]).iTotal = 3 ∧
    (run (ReceiverThread.construct 7 ⟨0, 0, 0, 0, 0⟩)
      [⟨7, 100, 0, 50⟩, ⟨7, 101, 10000, 10060⟩, ⟨7, 106, 60000, 60055⟩]).iMissed = 4 :=
  ⟨(loss_accounting 7 ⟨0, 0, 0, 0, 0⟩
      [⟨7, 100, 0, 50⟩, ⟨7, 101, 10000, 10060⟩, ⟨7, 106, 60000, 60055⟩]
      (by decide) (by decide) (by decide) (by decide) (by decide)).1,
   (loss_accounting 7 ⟨0, 0, 0, 0, 0⟩
      [⟨7, 100, 0, 50⟩, ⟨7, 101, 10000, 10060⟩, ⟨7, 106, 60000, 60055⟩]
      (by decide) (by decide) (by decide) (by decide) (by decide)).2.1⟩

/-! ### Session start-up -/

/-- C9, the claim as stated fails: when the sender answers `ERROR bad args`,
`main` returns 1 and creates no receiver thread, but the connection to the
receiver is already open and connected: `receiverClient.Open()` and
`Connect` come before the start request is written. -/
theorem rejected_start_receiver_already_connected :
    (envAnswering "ERROR bad args").response ≠ "OK" ∧
    (main (envAnswering "ERROR bad args")).exitCode = some 1 ∧
    (main (envAnswering "ERROR bad args")).trace =
      [.receiverOpen, .receiverConnect "10.0.0.5" 9002, .senderOpen,
       .senderConnect "10.0.0.4" 8000, .senderWrite "start 10.0.0.5:9000 7 0 12 10000 1\n",
       .senderClose, .listDelete, .libraryClose] ∧
    (main (envAnswering "ERROR bad args")).trace.any Event.onReceiverSocket = true := by
  decide

/-- C9, amended: when `main` has written to the sender and the line read back
is anything other than exactly `OK`, it returns 1 without creating the
receiver thread; the connection to the receiver has by then been opened and
connected, before the start request was written.  The receiver thread is
created only when the line is exactly `OK`, after the receiver connection and
the start request. -/
theorem rejected_start_aborts (e : Env) :
    ((∃ text, Event.senderWrite text ∈ (main e).trace) → e.response ≠ "OK" →
      (main e).exitCode = some 1 ∧ (∀ ev ∈ (main e).trace, ev.isThreadNew = false) ∧
      ∃ (sender receiver : CpNetworkMonitor) (rest : List Event), (main e).trace =
        [.receiverOpen, .receiverConnect receiver.address receiver.results, .senderOpen,
         .senderConnect sender.address sender.sender,
         .senderWrite (startRequest receiver e.optionId e.optionCount e.optionBytes
           e.optionDelay e.optionTtl)] ++ rest) ∧
    ((∃ ev ∈ (main e).trace, ev.isThreadNew = true) → e.response = "OK" ∧
      ∃ (sender receiver : CpNetworkMonitor) (rest : List Event), (main e).trace =
        [.receiverOpen, .receiverConnect receiver.address receiver.results, .senderOpen,
         .senderConnect sender.address sender.sender,
         .senderWrite (startRequest receiver e.optionId e.optionCount e.optionBytes
           e.optionDelay e.optionTtl),
         .receiverThreadNew e.optionAnalyse e.optionId] ++ rest) := by
  generalize ho : main e = o
  unfold main at ho
  by_cases h1 : ¬ e.parseOk = true
  · rw [if_pos h1] at ho; subst ho; simp [Event.isThreadNew]
  rw [if_neg h1] at ho
  by_cases h2 : e.optionList = true
  · rw [if_pos h2] at ho; subst ho; simp [Event.isThreadNew]
  rw [if_neg h2] at ho
  by_cases h3 : e.optionSender.utf8ByteSize = 0
  · rw [if_pos h3] at ho; subst ho; simp [Event.isThreadNew]
  rw [if_neg h3] at ho
  by_cases h4 : e.optionReceiver.utf8ByteSize = 0
  · rw [if_pos h4] at ho; subst ho; simp [Event.isThreadNew]
  rw [if_neg h4] at ho
  cases hs : Find e.iList e.optionSender with
  | none => rw [hs] at ho; subst ho; simp [Event.isThreadNew]
  | some sender =>
    cases hr : Find e.iList e.optionReceiver with
    | none => rw [hs, hr] at ho; subst ho; simp [Event.isThreadNew]
    | some receiver =>
      rw [hs, hr] at ho
      simp only at ho
      by_cases h5 : e.optionId = 0
      · rw [if_pos h5] at ho; subst ho; simp [Event.isThreadNew]
      rw [if_neg h5] at ho
      by_cases h6 : e.optionDelay = 0
      · rw [if_pos h6] at ho; subst ho; simp [Event.isThreadNew]
      rw [if_neg h6] at ho
      by_cases h7 : ¬ e.receiverOpenOk = true
      · rw [if_pos h7] at ho; subst ho; simp [Event.isThreadNew]
      rw [if_neg h7] at ho
      by_cases h8 : ¬ e.receiverConnectOk = true
      · rw [if_pos h8] at ho; subst ho; simp [Event.isThreadNew]
      rw [if_neg h8] at ho
      by_cases h9 : ¬ e.senderOpenOk = true
      · rw [if_pos h9] at ho; subst ho; simp [Event.isThreadNew]
      rw [if_neg h9] at ho
      by_cases h10 : ¬ e.senderConnectOk = true
      · rw [if_pos h10] at ho; subst ho; simp [Event.isThreadNew]
      rw [if_neg h10] at ho
      by_cases h11 : e.response ≠ "OK"
      · rw [if_pos h11] at ho
        subst ho
        refine ⟨fun _ _ => ⟨rfl, ?_, sender, receiver, _, rfl⟩, fun h => ?_⟩
        · simp [Event.isThreadNew]
        · simp [Event.isThreadNew] at h
      rw [if_neg h11] at ho
      have hok : e.response = "OK" := not_not.mp h11
      by_cases h12 : (keyLoop e.keys).2 = true
      · rw [if_pos h12] at ho
        subst ho
        exact ⟨fun _ hne => absurd hok hne, fun _ => ⟨hok, sender, receiver, _, rfl⟩⟩
      · rw [if_neg h12] at ho
        subst ho
        exact ⟨fun _ hne => absurd hok hne, fun _ => ⟨hok, sender, receiver, _, rfl⟩⟩

/-- C9 at the answer `ERROR bad args`: exit code 1 and no receiver thread. -/
theorem rejected_start_aborts_witness :
    (main (envAnswering "ERROR bad args")).exitCode = some 1 ∧
    (∀ ev ∈ (main (envAnswering "ERROR bad args")).trace, ev.isThreadNew = false) :=
  ⟨((rejected_start_aborts (envAnswering "ERROR bad args")).1
      ⟨"start 10.0.0.5:9000 7 0 12 10000 1\n", by decide⟩ (by decide)).1,
   ((rejected_start_aborts (envAnswering "ERROR bad args")).1
      ⟨"start 10.0.0.5:9000 7 0 12 10000 1\n", by decide⟩ (by decide)).2.1⟩

end OhNetmon
